import Mathlib

/-!
Verification of the mosaic-stitcher pipeline (`czi_stitcher/processors.py`,
`czi_stitcher/utils.py`) against its natural-language specification.

The pipeline is shallowly embedded: the filesystem is an association list
from path strings to file values, OME metadata is an explicit tree, and the
delegated external engines (the Bio-Formats reader/writer bridge, the ashlar
stitching engine, the ImageJ/BaSiC batch tool) are modelled as abstract
effect parameters whose invocations are recorded in an event trace.
-/

namespace MosaicStitcher

/-- Exceptions raised by the pipeline code: `FileNotFoundError`,
`IndexError`, `TypeError`, `NotImplementedError`, `AttributeError`
(calling a method on Python `None`), and reader failures. -/
inductive Err where
  | notFound
  | indexError
  | typeError
  | notImplemented
  | attributeError
  | readError
deriving DecidableEq, Repr

/-- One image plane: pixel dimensions plus raw bytes.
`skimage.io.imread(...).shape` of a single plane is `(height, width)`. -/
structure Plane where
  height : Nat
  width : Nat
  data : List Nat
deriving DecidableEq, Repr

/-- OME `FilterSet`: identity plus links to a dichroic and to
excitation/emission filters (all referenced by id). -/
structure FilterSet where
  fid : Nat
  dichroic : Option Nat
  excitationFilters : List Nat
  emissionFilters : List Nat
deriving DecidableEq, Repr

/-- OME `Channel`: an identity and the linked `FilterSet`
(`getLinkedFilterSet` returns `none` when no filter set is linked). -/
structure Channel where
  cid : Nat
  linkedFilterSet : Option FilterSet
deriving DecidableEq, Repr

/-- OME `Pixels` block: size attributes and the channel list. -/
structure Pixels where
  sizeX : Nat
  sizeY : Nat
  channels : List Channel
deriving DecidableEq, Repr

/-- OME `Image`: a name and its `Pixels` block. -/
structure OMEImage where
  name : String
  pixels : Pixels
deriving DecidableEq, Repr

/-- OME `Experimenter` record. -/
structure Experimenter where
  email : String
  firstName : String
  lastName : String
  institution : String
deriving DecidableEq, Repr

/-- OME `Instrument`: the filter sets, dichroics and filters it owns
(dichroics and filters referenced by id). -/
structure Instrument where
  filterSets : List FilterSet
  dichroics : List Nat
  filters : List Nat
deriving DecidableEq, Repr

/-- Root of an OME metadata tree. -/
structure OMERoot where
  instruments : List Instrument
  images : List OMEImage
  experimenters : List Experimenter
deriving DecidableEq, Repr

/-- An on-disk file: image series (each a list of planes) plus the
embedded OME metadata tree.  Non-image files (e.g. the ImageJ executable)
are represented with empty series. -/
structure File where
  series : List (List Plane)
  meta : OMERoot
deriving DecidableEq, Repr

/-- The filesystem: an association list from absolute path strings to
files. -/
abbrev FS := List (String × File)

/-- Look up the file stored at a path. -/
def lookupFile : FS → String → Option File
  | [], _ => none
  | e :: fs, p => if e.1 = p then some e.2 else lookupFile fs p

/-- `Path.exists()`. -/
def pathExists (fs : FS) (p : String) : Bool :=
  (lookupFile fs p).isSome

/-- `Path.unlink()`: remove the entry at a path. -/
def eraseFile : FS → String → FS
  | [], _ => []
  | e :: fs, p => if e.1 = p then eraseFile fs p else e :: eraseFile fs p

/-- Create or overwrite the file at a path. -/
def setFile (fs : FS) (p : String) (f : File) : FS :=
  (p, f) :: eraseFile fs p

/-- Drop a leading segment from a character list, or fail. -/
def dropPre : List Char → List Char → Option (List Char)
  | [], s => some s
  | _, [] => none
  | a :: as, b :: bs => if a = b then dropPre as bs else none

/-- `pathlib.Path(p).name`: the part after the last `/` (the paths
handled here have no trailing slash). -/
def fileNameOf (p : String) : String :=
  String.mk (p.toList.foldl (fun acc c => if c = '/' then [] else acc ++ [c]) [])

/-- Replace every occurrence of a non-empty pattern in a character
list, driven by a fuel counter so the recursion is structural; with
fuel at least the list length the result is the full replacement. -/
def replaceFuel (pat repl : List Char) : Nat → List Char → List Char
  | _, [] => []
  | 0, l => l
  | n + 1, c :: cs =>
    match dropPre pat (c :: cs) with
    | some rest => repl ++ replaceFuel pat repl n rest
    | none => c :: replaceFuel pat repl n cs

/-- Python `fmt.format(channel=sub)` for the filename templates used
here: substitute `sub` for every occurrence of the channel
placeholder. -/
def formatChannel (fmt sub : String) : String :=
  String.mk (replaceFuel "{channel}".toList sub.toList fmt.toList.length fmt.toList)

/-- Lexicographic comparison of character lists by code point, as Python
string comparison does. -/
def listLe : List Char → List Char → Bool
  | [], _ => true
  | _ :: _, [] => false
  | a :: as, b :: bs =>
    if a.val.toNat = b.val.toNat then listLe as bs
    else decide (a.val.toNat < b.val.toNat)

/-- Python `<=` on strings (code-point lexicographic). -/
def strLe (a b : String) : Bool :=
  listLe a.toList b.toList

/-- Insert into a `strLe`-sorted list. -/
def insertSorted (x : String) : List String → List String
  | [] => [x]
  | y :: ys => if strLe x y then x :: y :: ys else y :: insertSorted x ys

/-- Python `sorted` on a list of paths (a stable insertion sort by
`strLe`; for path strings equal elements are identical, so this agrees
with any stable sort). -/
def sortPaths (l : List String) : List String :=
  l.foldr insertSorted []

/-- Glob matching with a fuel counter making the recursion structural:
`*` matches any (possibly empty) character sequence, every other
pattern character matches itself. -/
def globMatchFuel : Nat → List Char → List Char → Bool
  | 0, _, _ => false
  | _ + 1, [], [] => true
  | _ + 1, [], _ :: _ => false
  | n + 1, '*' :: ps, [] => globMatchFuel n ps []
  | n + 1, '*' :: ps, c :: cs =>
    globMatchFuel n ps (c :: cs) || globMatchFuel n ('*' :: ps) cs
  | n + 1, p :: ps, c :: cs => p == c && globMatchFuel n ps cs
  | _ + 1, _ :: _, [] => false

/-- Glob matching (each recursive step of `globMatchFuel` shortens the
pattern or the string, so this fuel always suffices). -/
def globMatch (p s : List Char) : Bool :=
  globMatchFuel (p.length + s.length + 1) p s

/-- `folder_path.glob(glob_pattern)` restricted to direct children of the
folder (a `*` does not cross a `/`), followed by `list(...)`:
`search_for_files` from the source. -/
def search_for_files (fs : FS) (folder_path : String) (glob_pattern : String) :
    List String :=
  (fs.map (·.1)).filter (fun p =>
    match dropPre (folder_path ++ "/").toList p.toList with
    | some rest => !(rest.contains '/') && globMatch glob_pattern.toList rest
    | none => false)

/-- Arguments of one call into the ashlar stitching engine
(`ashlar.process_single`), restricted to the fields the claims are about
(input paths, output path template, orientation flags, correction
profiles, alignment channel). -/
structure EngineCall where
  inputs : List String
  pathFormat : String
  flipX : Bool
  flipY : Bool
  ffp : List String
  dfp : List String
  alignChannel : Nat
deriving DecidableEq, Repr

/-- Observable invocations of the delegated engines: a Bio-Formats
reader/writer being opened on a path (`setId`), a subprocess run of the
external batch tool, a call into the stitching engine, and an error
being reported through `logger.error`. -/
inductive Event where
  | readerOpen (path : String)
  | writerOpen (path : String)
  | toolRun (cmd : String)
  | engineCall (c : EngineCall)
  | errorLog
deriving DecidableEq, Repr

/-- First whitespace-separated token of a command string, as
`shlex.split(command)[0]` yields for the commands built here. -/
def firstWord (cmd : String) : String :=
  String.mk (cmd.data.takeWhile (fun c => !(c == ' ')))

/-- `run_command` (utils.py): runs the command as a subprocess and
returns its exit status.  `subprocess.run` raises `FileNotFoundError`
when the executable does not exist; otherwise the (arbitrary) tool
effect `tool` is applied to the filesystem and the exit code is
returned. -/
def run_command (tool : String → FS → FS) (toolExit : String → FS → Int)
    (cmd : String) (fs : FS) : Except Err (FS × Int) :=
  if pathExists fs (firstWord cmd) then
    .ok (tool cmd fs, toolExit cmd fs)
  else
    .error .notFound

/-- `tiles_to_stacks` (processors.py, the Stack Normalizer `normalize`).
Raises `FileNotFoundError` when the input is missing; returns the output
path unchanged when it already exists; otherwise opens a reader on the
input and a writer on the output and copies every plane of every series
verbatim (the metadata store read from the input is handed to the
writer).  `tile_size_x`/`tile_size_y` are accepted and unused, as in the
source where their uses are commented out. -/
def tiles_to_stacks (input_path output_path : String)
    (_tile_size_x : Nat := 2048) (_tile_size_y : Nat := 2048) (fs : FS) :
    FS × List Event × Except Err String :=
  match lookupFile fs input_path with
  | none => (fs, [], .error .notFound)
  | some f =>
    if pathExists fs output_path then
      (fs, [], .ok output_path)
    else
      (setFile fs output_path ⟨f.series, f.meta⟩,
       [.readerOpen input_path, .writerOpen output_path],
       .ok output_path)

/-- `get_image_shape` (processors.py): `skimage.io.imread(path).shape`,
which for the single-plane mosaics handled here is
`(height, width)` of the file's first plane. -/
def get_image_shape (fs : FS) (image_path : String) : Except Err (Nat × Nat) :=
  match lookupFile fs image_path with
  | none => .error .notFound
  | some f =>
    match f.series.head? >>= List.head? with
    | none => .error .readError
    | some pl => .ok (pl.height, pl.width)

/-- `ImageReader().setId(img); reader.openBytes(0)`: the first plane of
the file at a path. -/
def readPlane0 (fs : FS) (p : String) : Except Err Plane :=
  match lookupFile fs p with
  | none => .error .notFound
  | some f =>
    match f.series.head? >>= List.head? with
    | none => .error .readError
    | some pl => .ok pl

/-- The plane-writing loop of `merge_channels`: read plane 0 of each
listed file, in list order. -/
def readPlanes (fs : FS) : List String → Except Err (List Plane)
  | [] => .ok []
  | p :: ps =>
    match readPlane0 fs p with
    | .error e => .error e
    | .ok pl =>
      match readPlanes fs ps with
      | .error e => .error e
      | .ok pls => .ok (pl :: pls)

/-- Fold the `metadata_funcs` list over the metadata tree, in order
(`for func in metadata_funcs: metadata = func(metadata)`), propagating
the first exception. -/
def applyFuncs : List (OMERoot → Except Err OMERoot) → OMERoot →
    Except Err OMERoot
  | [], m => .ok m
  | f :: rest, m =>
    match f m with
    | .error e => .error e
    | .ok m' => applyFuncs rest m'

/-- `merge_channels` (processors.py, the Channel Merger `merge`).
Reads the shape of the first listed mosaic (`IndexError` on an empty
list), loads the metadata tree from `metadata_path`, rewrites the sole
retained Image/Pixels block to that shape (SizeX := width, SizeY :=
height) and to the output file name, applies the metadata transforms in
order, deletes any pre-existing output file, then writes one plane per
listed mosaic, in list order, into a fresh file carrying the final
tree.  (A partially written output left behind by a failing plane read
is not modelled; no claim concerns that state.) -/
def merge_channels (image_paths : List String)
    (metadata_path output_path : String)
    (metadata_funcs : List (OMERoot → Except Err OMERoot)) (fs : FS) :
    FS × List Event × Except Err String :=
  match image_paths.head? with
  | none => (fs, [], .error .indexError)
  | some first =>
    match get_image_shape fs first with
    | .error e => (fs, [], .error e)
    | .ok shape =>
      match lookupFile fs metadata_path with
      | none => (fs, [], .error .notFound)
      | some mfile =>
        let root := mfile.meta
        match root.images.head? with
        | none => (fs, [.readerOpen metadata_path], .error .indexError)
        | some img0 =>
          let imageMeta : OMEImage :=
            { img0 with
                name := fileNameOf output_path,
                pixels := { img0.pixels with sizeX := shape.2, sizeY := shape.1 } }
          let root : OMERoot := { root with images := [imageMeta] }
          match applyFuncs metadata_funcs root with
          | .error e => (fs, [.readerOpen metadata_path], .error e)
          | .ok metadata =>
            let fs1 := if pathExists fs output_path then eraseFile fs output_path else fs
            match readPlanes fs1 image_paths with
            | .error e =>
              (fs1, [.readerOpen metadata_path, .writerOpen output_path], .error e)
            | .ok planes =>
              (setFile fs1 output_path ⟨[planes], metadata⟩,
               [.readerOpen metadata_path, .writerOpen output_path]
                 ++ image_paths.map .readerOpen,
               .ok output_path)

/-- The `user_info` dict fields that `add_experimenter_data` reads
(`middle_name` is present in the driver's dict but never read). -/
structure UserInfo where
  first_name : String
  last_name : String
  email : String
  institution : String
deriving DecidableEq, Repr

/-- Update the element at an index, leaving the list unchanged when the
index is out of range. -/
def updAt : Nat → (Experimenter → Experimenter) → List Experimenter →
    List Experimenter
  | _, _, [] => []
  | 0, f, x :: xs => f x :: xs
  | n + 1, f, x :: xs => x :: updAt n f xs

/-- Pad the experimenter list so that an index is populated, as the
Bio-Formats metadata-store setters create missing nodes on demand. -/
def padExperimenters (l : List Experimenter) (i : Nat) : List Experimenter :=
  if l.length ≤ i then l ++ List.replicate (i + 1 - l.length) ⟨"", "", "", ""⟩
  else l

/-- One `setExperimenter…` store call: ensure the record at the index
exists, then update one of its fields. -/
def setExperimenterAt (root : OMERoot) (i : Nat)
    (upd : Experimenter → Experimenter) : OMERoot :=
  { root with experimenters := updAt i upd (padExperimenters root.experimenters i) }

/-- `add_experimenter_data` (processors.py): sets email, first name,
last name and institution of the experimenter record at
`experimenter_index`, in that order, overwriting unconditionally. -/
def add_experimenter_data (metadata : OMERoot) (user_info : UserInfo)
    (experimenter_index : Nat := 0) : OMERoot :=
  let m1 := setExperimenterAt metadata experimenter_index
    (fun e => { e with email := user_info.email })
  let m2 := setExperimenterAt m1 experimenter_index
    (fun e => { e with firstName := user_info.first_name })
  let m3 := setExperimenterAt m2 experimenter_index
    (fun e => { e with lastName := user_info.last_name })
  setExperimenterAt m3 experimenter_index
    (fun e => { e with institution := user_info.institution })

/-- The per-channel instrument cleanup of `fix_filters_metadata`:
`instrument.removeFilterSet(filter_set)`, then
`instrument.removeDichroic(filter_set.getLinkedDichroic())` (a `null`
dichroic makes the removal a no-op), then removal of every linked
excitation filter and every linked emission filter, in that order. -/
def removeFilterSetRefs (instrument : Instrument) (filter_set : FilterSet) :
    Instrument :=
  let i1 := { instrument with filterSets := instrument.filterSets.erase filter_set }
  let i2 :=
    match filter_set.dichroic with
    | some d => { i1 with dichroics := i1.dichroics.erase d }
    | none => i1
  let i3 := { i2 with filters := filter_set.excitationFilters.foldl List.erase i2.filters }
  { i3 with filters := filter_set.emissionFilters.foldl List.erase i3.filters }

/-- The channel loop of `fix_filters_metadata`, carrying the loop index
`ch`, the instrument and the `kept_filter_set` variable.  At `ch = 0`
the channel's linked filter set becomes the kept one; at `ch > 0` the
channel is relinked to the kept set and its old filter set's entries are
removed from the instrument.  A channel at `ch > 0` with no linked
filter set makes the Python code dereference `None`
(`filter_set.getLinkedDichroic()`), modelled as `none`
(`AttributeError` propagating out of the whole call). -/
def fixChansAux : Nat → Instrument → Option FilterSet → List Channel →
    Option (Instrument × Option FilterSet × List Channel)
  | _, instrument, kept, [] => some (instrument, kept, [])
  | ch, instrument, kept, c :: rest =>
    if ch = 0 then
      match fixChansAux (ch + 1) instrument c.linkedFilterSet rest with
      | none => none
      | some (i, k, cs) => some (i, k, c :: cs)
    else
      match c.linkedFilterSet with
      | none => none
      | some filter_set =>
        let c' : Channel := { c with linkedFilterSet := kept }
        let instrument' := removeFilterSetRefs instrument filter_set
        match fixChansAux (ch + 1) instrument' kept rest with
        | none => none
        | some (i, k, cs) => some (i, k, c' :: cs)

/-- The image loop of `fix_filters_metadata`: `kept_filter_set` is a
single variable threaded across images (it is reassigned at channel 0
of every image that has channels). -/
def fixImagesAux : Instrument → Option FilterSet → List OMEImage →
    Option (Instrument × Option FilterSet × List OMEImage)
  | instrument, kept, [] => some (instrument, kept, [])
  | instrument, kept, img :: rest =>
    match fixChansAux 0 instrument kept img.pixels.channels with
    | none => none
    | some (i, k, cs) =>
      match fixImagesAux i k rest with
      | none => none
      | some (i2, k2, imgs) =>
        some (i2, k2, { img with pixels := { img.pixels with channels := cs } } :: imgs)

/-- `fix_filters_metadata` (processors.py, the Metadata Reconciler
`collapse_filter_sets`): condenses the per-channel filter sets of every
image into the first channel's filter set and removes the orphaned
filter sets (with their dichroics and excitation/emission filters) from
instrument 0.  `root.getInstrument(0)` on a tree without instruments
raises, modelled as `none`. -/
def fix_filters_metadata (metadata : OMERoot) : Option OMERoot :=
  match metadata.instruments with
  | [] => none
  | instrument :: restInstruments =>
    match fixImagesAux instrument none metadata.images with
    | none => none
    | some (instrument', _, images') =>
      some { metadata with
               instruments := instrument' :: restInstruments,
               images := images' }

/-- `fix_filters_metadata` as a metadata transform for
`merge_channels`, with the Python exception made explicit. -/
def fixFiltersTransform (metadata : OMERoot) : Except Err OMERoot :=
  match fix_filters_metadata metadata with
  | none => .error .attributeError
  | some m => .ok m

/-- Hardcoded path of the ImageJ executable (processors.py). -/
def IMAGEJPATH : String :=
  "/Applications/Fiji.app/Contents/MacOS/ImageJ-macosx"

/-- Hardcoded path of the BaSiC illumination-correction script
(processors.py, `make_shading_profiles`). -/
def scriptPath : String :=
  "/Users/tim/Projects/image-processing/czi-stitcher/czi_stitcher/scripts/imagej_basic_ashlar.py"

/-- A single-quote character, used when assembling the shell command. -/
def sq : String := String.singleton (Char.ofNat 39)

/-- The shell command built by `make_shading_profiles`. -/
def shadingCmd (image_path output_dir experiment_name : String) : String :=
  IMAGEJPATH ++ " --ij2 --headless --run " ++ scriptPath ++ " \"filename=" ++
    sq ++ image_path ++ sq ++ "," ++ "output_dir=" ++ sq ++ output_dir ++ sq ++
    "," ++ "experiment_name=" ++ sq ++ experiment_name ++ sq ++ "\""

/-- `make_shading_profiles` (processors.py, the Shading Profile
Generator `generate_profiles`).  Returns the canonical profile path
pair immediately when both files exist; otherwise logs an error when
the hardcoded script path is absent (without aborting), runs the
external batch tool through `run_command` — whose exit code is
discarded — and returns the path pair.  A missing tool executable makes
`subprocess.run` raise `FileNotFoundError`, which propagates. -/
def make_shading_profiles (tool : String → FS → FS)
    (toolExit : String → FS → Int) (image_path output_dir : String)
    (experiment_name : String := "shading") (fs : FS) :
    FS × List Event × Except Err (String × String) :=
  let ffp_path := output_dir ++ "/" ++ (experiment_name ++ "-ffp-basic.tif")
  let dfp_path := output_dir ++ "/" ++ (experiment_name ++ "-dfp-basic.tif")
  if pathExists fs ffp_path && pathExists fs dfp_path then
    (fs, [], .ok (ffp_path, dfp_path))
  else
    let scriptLog : List Event := if pathExists fs scriptPath then [] else [.errorLog]
    let cmd := shadingCmd image_path output_dir experiment_name
    match run_command tool toolExit cmd fs with
    | .error e => (fs, scriptLog, .error e)
    | .ok (fs', _code) => (fs', scriptLog ++ [.toolRun cmd], .ok (ffp_path, dfp_path))

/-- The flat-field/dark-field list validation and broadcast of
`stitch_image`: an empty list passes through untouched; a non-empty
list whose length is not 0, 1 or `n` is a usage error (`none`); a
one-element list is repeated `n` times. -/
def checkProfiles (paths : List String) (n : Nat) : Option (List String) :=
  if paths.isEmpty then some paths
  else if paths.length = 0 ∨ paths.length = 1 ∨ paths.length = n then
    if paths.length = 1 then some (List.flatten (List.replicate n paths))
    else some paths
  else none

/-- `stitch_image` (processors.py, the Mosaic Stitcher `stitch`).
Validates/broadcasts the flat-field then the dark-field list, each
failure being logged and answered with Python `None` (no exception);
`plates=True` raises `NotImplementedError`; when no file matches the
filename template with a wildcard channel the stitching engine is
invoked; finally the matching files are re-globbed and returned sorted
by filename.  (The log-only check that the output directory exists
concerns directories, which the file model does not represent, and the
aligner/mosaic option dictionaries carry no claim-relevant data; both
are omitted.) -/
def stitch_image (engine : EngineCall → FS → FS) (image_files : List String)
    (output : String := ".") (align_channel : Nat := 0)
    (flip_x : Bool := false) (flip_y : Bool := false)
    (_output_channels : List Nat := [])
    (filename_format : String := "stitched_ch_{channel}.tif")
    (_pyramid : Bool := false) (ffp : List String := [])
    (dfp : List String := []) (plates : Bool := false)
    (_quiet : Bool := false) (fs : FS) :
    FS × List Event × Except Err (Option (List String)) :=
  match checkProfiles ffp image_files.length with
  | none => (fs, [.errorLog], .ok none)
  | some ffp_paths =>
    match checkProfiles dfp image_files.length with
    | none => (fs, [.errorLog], .ok none)
    | some dfp_paths =>
      if plates then (fs, [], .error .notImplemented)
      else
        let pattern := formatChannel filename_format "*"
        if (search_for_files fs output pattern).isEmpty then
          let call : EngineCall :=
            ⟨image_files, output ++ "/" ++ filename_format, flip_x, flip_y,
             ffp_paths, dfp_paths, align_channel⟩
          let fs2 := engine call fs
          (fs2, [.engineCall call],
           .ok (some (sortPaths (search_for_files fs2 output pattern))))
        else
          (fs, [], .ok (some (sortPaths (search_for_files fs output pattern))))

/-- The experimenter identity hardcoded in `process_image`
(the unread `middle_name` entry aside). -/
def userInfo : UserInfo :=
  { first_name := "Tim", last_name := "Morello",
    email := "tdmorello@gmail.com", institution := "Downstate" }

/-- The metadata transform list that `process_image` hands to
`merge_channels`. -/
def pipelineFuncs : List (OMERoot → Except Err OMERoot) :=
  [fun metadata => .ok (add_experimenter_data metadata userInfo 0),
   fixFiltersTransform]

/-- `process_image` (processors.py, the Pipeline Driver for one input):
normalize, then shading profiles, then stitch — with `flip_y=True`
hardcoded and `flip_x` left at its default `False` — then merge, each
exception aborting the remaining stages.  A `None` result of
`stitch_image` would be iterated by `merge_channels`, a `TypeError`. -/
def process_image (tool : String → FS → FS) (toolExit : String → FS → Int)
    (engine : EngineCall → FS → FS)
    (input_path tmp_folder output_path : String)
    (_metadata_correction : Bool := true) (fs : FS) :
    FS × List Event × Except Err String :=
  match tiles_to_stacks input_path (tmp_folder ++ "/" ++ "stacked.ome.tif") 2048 2048 fs with
  | (fs1, t1, .error e) => (fs1, t1, .error e)
  | (fs1, t1, .ok stacked) =>
    match make_shading_profiles tool toolExit stacked tmp_folder "shading" fs1 with
    | (fs2, t2, .error e) => (fs2, t1 ++ t2, .error e)
    | (fs2, t2, .ok (ffp, dfp)) =>
      match stitch_image engine [stacked] tmp_folder 0 false true []
          "stitched_ch_{channel}.tif" false [ffp] [dfp] false false fs2 with
      | (fs3, t3, .error e) => (fs3, t1 ++ t2 ++ t3, .error e)
      | (fs3, t3, .ok none) => (fs3, t1 ++ t2 ++ t3, .error .typeError)
      | (fs3, t3, .ok (some stitched)) =>
        match merge_channels stitched stacked output_path pipelineFuncs fs3 with
        | (fs4, t4, r) => (fs4, t1 ++ t2 ++ t3 ++ t4, r)

/-- The argparse surface of `main`: positional file paths, `-o` or
`--output`, the boolean `--flip-x` and `--flip-y` flags, `-f` or
`--filename-format`, and `--tmp` or `-tmp-directory`, with the
source's defaults. -/
structure Args where
  filepaths : List String
  output : String
  flip_x : Bool
  flip_y : Bool
  filename_format : String
  tmp_dir : String
deriving DecidableEq, Repr

/-- The parser defaults declared in `main`. -/
def argDefaults : Args :=
  { filepaths := [], output := ".", flip_x := false, flip_y := false,
    filename_format := "cycle_{cycle}_ch_{channel}.tif",
    tmp_dir := "/Users/tim/Projects/image-processing/czi-stitcher/czi_stitcher/data/tmp" }

/-- The argparse behaviour of `main` on well-formed command lines:
value options consume the following token, `store_true` flags set their
field, anything else is a positional file path. -/
def parseArgs : List String → Args → Args
  | [], a => a
  | "-o" :: v :: rest, a => parseArgs rest { a with output := v }
  | "--output" :: v :: rest, a => parseArgs rest { a with output := v }
  | "--flip-x" :: rest, a => parseArgs rest { a with flip_x := true }
  | "--flip-y" :: rest, a => parseArgs rest { a with flip_y := true }
  | "-f" :: v :: rest, a => parseArgs rest { a with filename_format := v }
  | "--filename-format" :: v :: rest, a => parseArgs rest { a with filename_format := v }
  | "--tmp" :: v :: rest, a => parseArgs rest { a with tmp_dir := v }
  | "-tmp-directory" :: v :: rest, a => parseArgs rest { a with tmp_dir := v }
  | p :: rest, a => parseArgs rest { a with filepaths := a.filepaths ++ [p] }

/-- `pathlib.Path(path).name.split(".")[0]`: the file name up to its
first dot. -/
def baseNameOf (p : String) : String :=
  String.mk ((fileNameOf p).toList.takeWhile (fun c => !(c == '.')))

/-- The per-file loop of `main`: each input gets a scratch directory
keyed by its base name and an output path under the output directory;
the first exception aborts the loop (directory creation by `TempFolder`
is not represented, the file model having no directories). -/
def mainLoop (tool : String → FS → FS) (toolExit : String → FS → Int)
    (engine : EngineCall → FS → FS) :
    List String → Args → FS → FS × List Event × Except Err Unit
  | [], _, fs => (fs, [], .ok ())
  | path :: rest, args, fs =>
    let basename := baseNameOf path
    let temp_folder_path := args.tmp_dir ++ "/" ++ basename
    let output_path := args.output ++ "/" ++ (basename ++ ".ome.tif")
    match process_image tool toolExit engine path temp_folder_path output_path true fs with
    | (fs', t, .error e) => (fs', t, .error e)
    | (fs', t, .ok _) =>
      match mainLoop tool toolExit engine rest args fs' with
      | (fs2, t2, r) => (fs2, t ++ t2, r)

/-- `main` (processors.py): parses `argv[1:]` — note that the parsed
`flip_x`, `flip_y` and `filename_format` values are never read again,
their uses being commented out in the source — and processes each input
file in order. -/
def main (tool : String → FS → FS) (toolExit : String → FS → Int)
    (engine : EngineCall → FS → FS) (argv : List String) (fs : FS) :
    FS × List Event × Except Err Unit :=
  let args := parseArgs argv.tail argDefaults
  mainLoop tool toolExit engine args.filepaths args fs

/-! Statement-side helpers: shorthand used only to state the claims. -/

/-- The `(SizeX, SizeY)` attributes of an image. -/
def sizePair (i : OMEImage) : Nat × Nat := (i.pixels.sizeX, i.pixels.sizeY)

/-- The filter sets linked from the channels beyond the first of one
image — the sets `fix_filters_metadata` orphans. -/
def imageOrphans (img : OMEImage) : List FilterSet :=
  (img.pixels.channels.drop 1).filterMap (·.linkedFilterSet)

/-- All orphaned filter sets of an image list, in traversal order. -/
def orphanSets (images : List OMEImage) : List FilterSet :=
  images.foldr (fun i acc => imageOrphans i ++ acc) []

/-- The dichroics linked from the orphaned filter sets. -/
def orphanDichroics (images : List OMEImage) : List Nat :=
  (orphanSets images).filterMap (·.dichroic)

/-- The excitation and emission filters linked from one filter set. -/
def setFilters (s : FilterSet) : List Nat :=
  s.excitationFilters ++ s.emissionFilters

/-- The filters linked from the orphaned filter sets. -/
def orphanFilters (images : List OMEImage) : List Nat :=
  (orphanSets images).foldr (fun s acc => setFilters s ++ acc) []

/-- Every filter set linked from any channel of any image. -/
def allLinkedSets (images : List OMEImage) : List FilterSet :=
  images.foldr (fun i acc => i.pixels.channels.filterMap (·.linkedFilterSet) ++ acc) []

/-- The channel list after collapsing: every channel beyond the first
relinked to the first channel's filter set. -/
def relinkChannels : List Channel → List Channel
  | [] => []
  | c :: cs => c :: cs.map (fun d => { d with linkedFilterSet := c.linkedFilterSet })

/-- An image after collapsing its channels' filter sets. -/
def relinkImage (img : OMEImage) : OMEImage :=
  { img with pixels := { img.pixels with channels := relinkChannels img.pixels.channels } }

/-- The orientation flags of every stitching-engine call in a trace. -/
def engineFlips (t : List Event) : List (Bool × Bool) :=
  t.filterMap (fun e =>
    match e with
    | .engineCall c => some (c.flipX, c.flipY)
    | _ => none)

/-- A content-free file, used for concrete witnesses. -/
def emptyFile : File := ⟨[], ⟨[], [], []⟩⟩

/-- A 7×9 plane, used for concrete witnesses. -/
def planeW1 : Plane := ⟨7, 9, [5]⟩

/-- A 3×2 plane, used for concrete witnesses. -/
def planeW2 : Plane := ⟨3, 2, [6]⟩

/-- Witness filter set 1 (dichroic 11, filters 21/31). -/
def fsetW1 : FilterSet := ⟨1, some 11, [21], [31]⟩

/-- Witness filter set 2 (dichroic 12, filters 22/32). -/
def fsetW2 : FilterSet := ⟨2, some 12, [22], [32]⟩

/-- Witness instrument owning both filter sets. -/
def instrW : Instrument := ⟨[fsetW1, fsetW2], [11, 12], [21, 22, 31, 32]⟩

/-- Witness image with two channels linked to distinct filter sets. -/
def imgW : OMEImage := ⟨"img", ⟨100, 200, [⟨0, some fsetW1⟩, ⟨1, some fsetW2⟩]⟩⟩

/-- Witness metadata tree. -/
def rootW : OMERoot := ⟨[instrW], [imgW], []⟩

/-- Witness filesystem: two single-plane channel mosaics of different
sizes, a metadata-bearing file, and a pre-existing output file. -/
def fsW : FS :=
  [("c0", ⟨[[planeW1]], ⟨[], [], []⟩⟩), ("c1", ⟨[[planeW2]], ⟨[], [], []⟩⟩),
   ("meta", ⟨[[planeW1]], rootW⟩), ("outp", emptyFile)]

/-- Witness metadata tree whose images have at most one channel. -/
def rootW10 : OMERoot :=
  ⟨[instrW], [⟨"solo", ⟨5, 6, [⟨0, some fsetW1⟩]⟩⟩, ⟨"empty", ⟨5, 6, []⟩⟩], []⟩

/-- Witness filesystem for a full driver run: one input acquisition and
the external tool executable. -/
def fsC8 : FS := [("sample.czi", ⟨[[planeW1]], rootW⟩), (IMAGEJPATH, emptyFile)]

/-! ### General lemmas -/

theorem takeWhile_append_all {p : Char → Bool} :
    ∀ (l₁ l₂ : List Char), (∀ x ∈ l₁, p x = true) →
      (l₁ ++ l₂).takeWhile p = l₁ ++ l₂.takeWhile p
  | [], l₂, _ => rfl
  | a :: l₁, l₂, h => by
    have ha : p a = true := h a (by simp)
    simp only [List.cons_append, List.takeWhile_cons, ha, if_true, reduceIte]
    rw [takeWhile_append_all l₁ l₂ (fun x hx => h x (by simp [hx]))]

set_option maxHeartbeats 1000000 in
theorem firstWord_shadingCmd (a b c : String) :
    firstWord (shadingCmd a b c) = IMAGEJPATH := by
  simp only [shadingCmd, firstWord, String.data_append, List.append_assoc]
  rw [takeWhile_append_all _ _ (by decide)]
  rfl

theorem lookupFile_cons (e : String × File) (fs : FS) (p : String) :
    lookupFile (e :: fs) p = if e.1 = p then some e.2 else lookupFile fs p := rfl

theorem eraseFile_cons (e : String × File) (fs : FS) (p : String) :
    eraseFile (e :: fs) p = if e.1 = p then eraseFile fs p else e :: eraseFile fs p := rfl

theorem lookupFile_eraseFile_ne (fs : FS) (p q : String) (h : p ≠ q) :
    lookupFile (eraseFile fs q) p = lookupFile fs p := by
  induction fs with
  | nil => rfl
  | cons e fs ih =>
    rw [eraseFile_cons]
    by_cases he : e.1 = q
    · rw [if_pos he, ih, lookupFile_cons,
        if_neg (fun hp => h (hp.symm.trans he))]
    · rw [if_neg he, lookupFile_cons, lookupFile_cons]
      by_cases hp : e.1 = p
      · rw [if_pos hp, if_pos hp]
      · rw [if_neg hp, if_neg hp, ih]

theorem eraseFile_idem (fs : FS) (q : String) :
    eraseFile (eraseFile fs q) q = eraseFile fs q := by
  induction fs with
  | nil => rfl
  | cons e fs ih =>
    rw [eraseFile_cons]
    by_cases he : e.1 = q
    · rw [if_pos he, ih]
    · rw [if_neg he, eraseFile_cons, if_neg he, ih]

theorem readPlane0_eraseFile_ne (fs : FS) (p q : String) (h : p ≠ q) :
    readPlane0 (eraseFile fs q) p = readPlane0 fs p := by
  unfold readPlane0
  rw [lookupFile_eraseFile_ne fs p q h]

theorem readPlanes_ok (fs : FS) (ps : List String)
    (h : ∀ p ∈ ps, ∃ pl, readPlane0 fs p = .ok pl) :
    ∃ planes, readPlanes fs ps = .ok planes ∧
      List.Forall₂ (fun p pl => readPlane0 fs p = .ok pl) ps planes := by
  induction ps with
  | nil => exact ⟨[], rfl, List.Forall₂.nil⟩
  | cons p ps ih =>
    obtain ⟨pl, hpl⟩ := h p (by simp)
    obtain ⟨planes, hps, hforall⟩ := ih (fun x hx => h x (by simp [hx]))
    exact ⟨pl :: planes, by unfold readPlanes; rw [hpl, hps],
      List.Forall₂.cons hpl hforall⟩

theorem readPlanes_congr (fs fs' : FS) (ps : List String)
    (h : ∀ p ∈ ps, readPlane0 fs' p = readPlane0 fs p) :
    readPlanes fs' ps = readPlanes fs ps := by
  induction ps with
  | nil => rfl
  | cons p ps ih =>
    unfold readPlanes
    rw [h p (by simp), ih (fun x hx => h x (by simp [hx]))]

theorem listLe_total : ∀ a b, listLe a b = true ∨ listLe b a = true
  | [], _ => Or.inl rfl
  | _ :: _, [] => Or.inr rfl
  | a :: as, b :: bs => by
    by_cases hab : a.val.toNat = b.val.toNat
    · simp only [listLe, if_pos hab, if_pos hab.symm]
      exact listLe_total as bs
    · simp only [listLe, if_neg hab, if_neg (Ne.symm hab), decide_eq_true_eq]
      omega

theorem listLe_trans : ∀ a b c, listLe a b = true → listLe b c = true →
    listLe a c = true
  | [], _, _, _, _ => rfl
  | _ :: _, [], _, h, _ => by simp [listLe] at h
  | _ :: _, _ :: _, [], _, h => by simp [listLe] at h
  | a :: as, b :: bs, c :: cs, h1, h2 => by
    simp only [listLe] at h1 h2 ⊢
    split_ifs at h1 h2 ⊢ <;>
      first
        | exact listLe_trans as bs cs h1 h2
        | (simp only [decide_eq_true_eq] at *; omega)

theorem strLe_total (a b : String) : strLe a b = true ∨ strLe b a = true :=
  listLe_total a.toList b.toList

theorem strLe_trans {a b c : String} (h1 : strLe a b = true)
    (h2 : strLe b c = true) : strLe a c = true :=
  listLe_trans a.toList b.toList c.toList h1 h2

theorem insertSorted_perm (x : String) (l : List String) :
    (insertSorted x l).Perm (x :: l) := by
  induction l with
  | nil => exact List.Perm.refl _
  | cons y ys ih =>
    unfold insertSorted
    by_cases h : strLe x y
    · rw [if_pos h]
    · rw [if_neg h]
      exact (ih.cons y).trans (List.Perm.swap x y ys)

theorem sortPaths_perm (l : List String) : (sortPaths l).Perm l := by
  induction l with
  | nil => exact List.Perm.refl _
  | cons x xs ih => exact (insertSorted_perm x (sortPaths xs)).trans (ih.cons x)

theorem pairwise_insertSorted (x : String) (l : List String)
    (h : l.Pairwise (fun a b => strLe a b = true)) :
    (insertSorted x l).Pairwise (fun a b => strLe a b = true) := by
  induction l with
  | nil => simp [insertSorted]
  | cons y ys ih =>
    rw [List.pairwise_cons] at h
    obtain ⟨hy, hys⟩ := h
    unfold insertSorted
    by_cases hxy : strLe x y = true
    · rw [if_pos hxy]
      refine List.Pairwise.cons ?_ (List.Pairwise.cons hy hys)
      intro z hz
      rcases List.mem_cons.mp hz with rfl | hz
      · exact hxy
      · exact strLe_trans hxy (hy z hz)
    · rw [if_neg hxy]
      refine List.Pairwise.cons ?_ (ih hys)
      intro z hz
      have hz' : z = x ∨ z ∈ ys := by
        simpa using (insertSorted_perm x ys).mem_iff.mp hz
      rcases hz' with rfl | hz'
      · rcases strLe_total z y with h | h
        · exact absurd h hxy
        · exact h
      · exact hy z hz'

theorem sortPaths_pairwise (l : List String) :
    (sortPaths l).Pairwise (fun a b => strLe a b = true) := by
  induction l with
  | nil => exact List.Pairwise.nil
  | cons x xs ih => exact pairwise_insertSorted x (sortPaths xs) ih

theorem flatten_replicate_singleton (n : Nat) (p : String) :
    (List.replicate n [p]).flatten = List.replicate n p := by
  induction n with
  | zero => rfl
  | succ k ih => simp [List.replicate_succ, ih]

theorem checkProfiles_eq_none (paths : List String) (n : Nat)
    (h0 : paths.length ≠ 0) (h1 : paths.length ≠ 1) (hn : paths.length ≠ n) :
    checkProfiles paths n = none := by
  unfold checkProfiles
  rw [if_neg, if_neg]
  · simp only [h0, h1, hn, or_self, false_or]
    exact fun h => by simp [h0, h1, hn] at h
  · simp only [List.isEmpty_iff, ← List.length_eq_zero]
    exact h0

theorem checkProfiles_singleton (p : String) (n : Nat) :
    checkProfiles [p] n = some (List.replicate n p) := by
  unfold checkProfiles
  simp [flatten_replicate_singleton]

theorem stitch_eq_of_ffp_none
    (engine : EngineCall → FS → FS) (files : List String) (output : String)
    (ac : Nat) (fx fy : Bool) (oc : List Nat) (fmt : String) (pyr : Bool)
    (ffp dfp : List String) (pl q : Bool) (fs : FS)
    (h : checkProfiles ffp files.length = none) :
    stitch_image engine files output ac fx fy oc fmt pyr ffp dfp pl q fs =
      (fs, [.errorLog], .ok none) := by
  unfold stitch_image
  rw [h]

theorem stitch_eq_of_dfp_none
    (engine : EngineCall → FS → FS) (files : List String) (output : String)
    (ac : Nat) (fx fy : Bool) (oc : List Nat) (fmt : String) (pyr : Bool)
    (ffp dfp : List String) (pl q : Bool) (fs : FS) (ffp2 : List String)
    (hf : checkProfiles ffp files.length = some ffp2)
    (hd : checkProfiles dfp files.length = none) :
    stitch_image engine files output ac fx fy oc fmt pyr ffp dfp pl q fs =
      (fs, [.errorLog], .ok none) := by
  unfold stitch_image
  rw [hf, hd]

theorem stitch_eq_cache
    (engine : EngineCall → FS → FS) (files : List String) (output : String)
    (ac : Nat) (fx fy : Bool) (oc : List Nat) (fmt : String) (pyr : Bool)
    (ffp dfp : List String) (q : Bool) (fs : FS) (ffp2 dfp2 : List String)
    (hf : checkProfiles ffp files.length = some ffp2)
    (hd : checkProfiles dfp files.length = some dfp2)
    (hglob : search_for_files fs output (formatChannel fmt "*") ≠ []) :
    stitch_image engine files output ac fx fy oc fmt pyr ffp dfp false q fs =
      (fs, [],
       .ok (some (sortPaths (search_for_files fs output (formatChannel fmt "*"))))) := by
  unfold stitch_image
  rw [hf, hd]
  simp [List.isEmpty_iff, hglob]

theorem stitch_eq_fresh
    (engine : EngineCall → FS → FS) (files : List String) (output : String)
    (ac : Nat) (fx fy : Bool) (oc : List Nat) (fmt : String) (pyr : Bool)
    (ffp dfp : List String) (q : Bool) (fs : FS) (ffp2 dfp2 : List String)
    (hf : checkProfiles ffp files.length = some ffp2)
    (hd : checkProfiles dfp files.length = some dfp2)
    (hglob : search_for_files fs output (formatChannel fmt "*") = []) :
    stitch_image engine files output ac fx fy oc fmt pyr ffp dfp false q fs =
      (engine ⟨files, output ++ "/" ++ fmt, fx, fy, ffp2, dfp2, ac⟩ fs,
       [.engineCall ⟨files, output ++ "/" ++ fmt, fx, fy, ffp2, dfp2, ac⟩],
       .ok (some (sortPaths (search_for_files
         (engine ⟨files, output ++ "/" ++ fmt, fx, fy, ffp2, dfp2, ac⟩ fs)
         output (formatChannel fmt "*"))))) := by
  unfold stitch_image
  rw [hf, hd]
  simp [List.isEmpty_iff, hglob]

/-- Every successful `stitch_image` call passed both profile checks and
returned the sorted re-glob of its final filesystem. -/
theorem stitch_ok_spec
    (engine : EngineCall → FS → FS) (files : List String) (output : String)
    (ac : Nat) (fx fy : Bool) (oc : List Nat) (fmt : String) (pyr : Bool)
    (ffp dfp : List String) (q : Bool) (fs : FS) (l : List String)
    (h : (stitch_image engine files output ac fx fy oc fmt pyr ffp dfp false q fs).2.2 =
      .ok (some l)) :
    (∃ ffp2, checkProfiles ffp files.length = some ffp2) ∧
    (∃ dfp2, checkProfiles dfp files.length = some dfp2) ∧
    l = sortPaths (search_for_files
      (stitch_image engine files output ac fx fy oc fmt pyr ffp dfp false q fs).1
      output (formatChannel fmt "*")) := by
  cases hf : checkProfiles ffp files.length with
  | none =>
    rw [stitch_eq_of_ffp_none engine files output ac fx fy oc fmt pyr ffp dfp false q fs hf] at h
    simp at h
  | some ffp2 =>
    cases hd : checkProfiles dfp files.length with
    | none =>
      rw [stitch_eq_of_dfp_none engine files output ac fx fy oc fmt pyr ffp dfp false q fs ffp2 hf hd] at h
      simp at h
    | some dfp2 =>
      refine ⟨⟨ffp2, rfl⟩, ⟨dfp2, rfl⟩, ?_⟩
      by_cases hglob : search_for_files fs output (formatChannel fmt "*") = []
      · rw [stitch_eq_fresh engine files output ac fx fy oc fmt pyr ffp dfp q fs ffp2 dfp2 hf hd hglob] at h ⊢
        simp only [Except.ok.injEq, Option.some.injEq] at h
        exact h.symm
      · rw [stitch_eq_cache engine files output ac fx fy oc fmt pyr ffp dfp q fs ffp2 dfp2 hf hd hglob] at h ⊢
        simp only [Except.ok.injEq, Option.some.injEq] at h
        exact h.symm

/-! ### Claims -/

/-- C9: `merge_channels` called with an empty channel-mosaic list fails
with the `IndexError` of `image_paths[0]` before the delete-existing-
output step (and before any reader or writer is opened), leaving the
filesystem — in particular any file at `output_path` — unchanged. -/
theorem C9_merge_empty_fails_before_delete (metadata_path output_path : String)
    (metadata_funcs : List (OMERoot → Except Err OMERoot)) (fs : FS) :
    merge_channels [] metadata_path output_path metadata_funcs fs =
      (fs, [], .error .indexError) := rfl

/-- C6: `tiles_to_stacks` on a nonexistent input path raises
`FileNotFoundError` with an empty event trace — so before any writer is
constructed — and leaves the filesystem unchanged, so no file is
created at `output_path`. -/
theorem C6_normalize_missing_input_no_writer
    (input_path output_path : String) (tsx tsy : Nat) (fs : FS)
    (h : lookupFile fs input_path = none) :
    tiles_to_stacks input_path output_path tsx tsy fs =
      (fs, [], .error .notFound) := by
  unfold tiles_to_stacks
  rw [h]

/-- Concrete instance of C6: on an empty filesystem the call raises and
creates nothing. -/
theorem C6_witness :
    tiles_to_stacks "missing.czi" "stacked.ome.tif" 2048 2048 [] =
      ([], [], .error .notFound) :=
  C6_normalize_missing_input_no_writer "missing.czi" "stacked.ome.tif" 2048 2048 [] rfl

/-- C7 counterexample: with the external batch tool executable absent
(empty filesystem, so the script and the cached profiles are absent
too), `make_shading_profiles` does NOT return the canonical profile
path pair: the `subprocess.run` inside `run_command` raises
`FileNotFoundError`, which propagates — contradicting the claim that a
missing external tool is only logged and the path pair still
returned. -/
theorem C7_counterexample :
    make_shading_profiles (fun _ f => f) (fun _ _ => 0)
        "stack.ome.tif" "scratch" "shading" [] =
      ([], [.errorLog], .error .notFound) := rfl

/-- C7 (amended): when the correction script path is absent but the
external tool executable exists and the profile pair is not cached, the
stage logs the missing script, still invokes the command, ignores the
subprocess exit code (the result does not depend on `toolExit`), does
not raise, and returns the canonical flat-field/dark-field path pair —
even when the tool produces no files. -/
theorem C7_script_missing_logged_not_raised
    (tool : String → FS → FS) (toolExit : String → FS → Int)
    (image_path output_dir experiment_name : String) (fs : FS)
    (hscript : pathExists fs scriptPath = false)
    (htool : pathExists fs IMAGEJPATH = true)
    (hcache : (pathExists fs (output_dir ++ "/" ++ (experiment_name ++ "-ffp-basic.tif")) &&
               pathExists fs (output_dir ++ "/" ++ (experiment_name ++ "-dfp-basic.tif"))) = false) :
    make_shading_profiles tool toolExit image_path output_dir experiment_name fs =
      (tool (shadingCmd image_path output_dir experiment_name) fs,
       [.errorLog, .toolRun (shadingCmd image_path output_dir experiment_name)],
       .ok (output_dir ++ "/" ++ (experiment_name ++ "-ffp-basic.tif"),
            output_dir ++ "/" ++ (experiment_name ++ "-dfp-basic.tif"))) := by
  simp only [make_shading_profiles, run_command, firstWord_shadingCmd, hcache, htool,
    hscript, Bool.false_eq_true, if_false, if_true, reduceIte, List.nil_append,
    List.singleton_append, List.cons_append]

/-- Concrete instance of the amended C7: tool present, script absent,
tool effect producing no files — the pair is still returned. -/
theorem C7_witness :
    make_shading_profiles (fun _ f => f) (fun _ _ => 1)
        "stack.ome.tif" "scratch" "shading" [(IMAGEJPATH, emptyFile)] =
      ([(IMAGEJPATH, emptyFile)],
       [.errorLog, .toolRun (shadingCmd "stack.ome.tif" "scratch" "shading")],
       .ok ("scratch/shading-ffp-basic.tif", "scratch/shading-dfp-basic.tif")) :=
  C7_script_missing_logged_not_raised (fun _ f => f) (fun _ _ => 1)
    "stack.ome.tif" "scratch" "shading" [(IMAGEJPATH, emptyFile)]
    (by decide) (by decide) (by decide)

/-- C3: with the first call's outputs present, a repeated call performs
no recomputation and returns the same result.  (1) `tiles_to_stacks`
with an existing output (and its input still readable, as on any second
call of a successful first call) returns the output path with an empty
trace — no reader or writer is opened — and an unchanged filesystem.
(2) `make_shading_profiles` with both canonical profile paths present
returns the same path pair with an empty trace — no tool invocation.
(3) `stitch_image` re-run on the filesystem left by a first call that
returned path set `l`, when some file matches the wildcard filename
template there, leaves the filesystem unchanged, performs no engine
call, and returns exactly `l` again. -/
theorem C3_second_call_is_cache_hit :
    (∀ (input output : String) (tsx tsy : Nat) (fs : FS) (f : File),
      lookupFile fs input = some f → pathExists fs output = true →
      tiles_to_stacks input output tsx tsy fs = (fs, [], .ok output))
    ∧ (∀ (tool : String → FS → FS) (toolExit : String → FS → Int)
        (image_path output_dir name : String) (fs : FS),
      pathExists fs (output_dir ++ "/" ++ (name ++ "-ffp-basic.tif")) = true →
      pathExists fs (output_dir ++ "/" ++ (name ++ "-dfp-basic.tif")) = true →
      make_shading_profiles tool toolExit image_path output_dir name fs =
        (fs, [], .ok (output_dir ++ "/" ++ (name ++ "-ffp-basic.tif"),
                      output_dir ++ "/" ++ (name ++ "-dfp-basic.tif"))))
    ∧ (∀ (engine : EngineCall → FS → FS) (files : List String)
        (output : String) (ac : Nat) (fx fy : Bool) (oc : List Nat)
        (fmt : String) (pyr : Bool) (ffp dfp : List String) (q : Bool)
        (fs : FS) (l : List String),
      (stitch_image engine files output ac fx fy oc fmt pyr ffp dfp false q fs).2.2 =
        .ok (some l) →
      search_for_files (stitch_image engine files output ac fx fy oc fmt pyr ffp dfp false q fs).1
          output (formatChannel fmt "*") ≠ [] →
      stitch_image engine files output ac fx fy oc fmt pyr ffp dfp false q
          (stitch_image engine files output ac fx fy oc fmt pyr ffp dfp false q fs).1 =
        ((stitch_image engine files output ac fx fy oc fmt pyr ffp dfp false q fs).1,
         [], .ok (some l))) := by
  refine ⟨?_, ?_, ?_⟩
  · intro input output tsx tsy fs f hin hout
    unfold tiles_to_stacks
    rw [hin, hout]
    simp
  · intro tool toolExit image_path output_dir name fs h1 h2
    simp [make_shading_profiles, h1, h2]
  · intro engine files output ac fx fy oc fmt pyr ffp dfp q fs l h1 h2
    obtain ⟨⟨ffp2, hf⟩, ⟨dfp2, hd⟩, hl⟩ :=
      stitch_ok_spec engine files output ac fx fy oc fmt pyr ffp dfp q fs l h1
    rw [stitch_eq_cache engine files output ac fx fy oc fmt pyr ffp dfp q
      (stitch_image engine files output ac fx fy oc fmt pyr ffp dfp false q fs).1
      ffp2 dfp2 hf hd h2, hl]

/-- Concrete instance of C3: each stage's second call is a cache hit on
a filesystem already holding the outputs. -/
theorem C3_witness :
    (tiles_to_stacks "in.czi" "out.ome.tif" 2048 2048
        [("in.czi", emptyFile), ("out.ome.tif", emptyFile)] =
      ([("in.czi", emptyFile), ("out.ome.tif", emptyFile)], [], .ok "out.ome.tif"))
    ∧ (make_shading_profiles (fun _ f => f) (fun _ _ => 0) "stack" "dir" "shading"
        [("dir/shading-ffp-basic.tif", emptyFile), ("dir/shading-dfp-basic.tif", emptyFile)] =
      ([("dir/shading-ffp-basic.tif", emptyFile), ("dir/shading-dfp-basic.tif", emptyFile)],
       [], .ok ("dir/shading-ffp-basic.tif", "dir/shading-dfp-basic.tif")))
    ∧ (stitch_image (fun _ f => f) ["stack"] "dir" 0 false false []
        "stitched_ch_{channel}.tif" false [] [] false false
        (stitch_image (fun _ f => f) ["stack"] "dir" 0 false false []
          "stitched_ch_{channel}.tif" false [] [] false false
          [("dir/stitched_ch_0.tif", emptyFile)]).1 =
      ((stitch_image (fun _ f => f) ["stack"] "dir" 0 false false []
          "stitched_ch_{channel}.tif" false [] [] false false
          [("dir/stitched_ch_0.tif", emptyFile)]).1,
       [], .ok (some ["dir/stitched_ch_0.tif"]))) :=
  ⟨C3_second_call_is_cache_hit.1 "in.czi" "out.ome.tif" 2048 2048
      [("in.czi", emptyFile), ("out.ome.tif", emptyFile)] emptyFile rfl rfl,
   C3_second_call_is_cache_hit.2.1 (fun _ f => f) (fun _ _ => 0) "stack" "dir" "shading"
      [("dir/shading-ffp-basic.tif", emptyFile), ("dir/shading-dfp-basic.tif", emptyFile)]
      rfl rfl,
   C3_second_call_is_cache_hit.2.2 (fun _ f => f) ["stack"] "dir" 0 false false []
      "stitched_ch_{channel}.tif" false [] [] false
      [("dir/stitched_ch_0.tif", emptyFile)] ["dir/stitched_ch_0.tif"]
      rfl (by decide)⟩

/-- C4: (1) whenever the flat-field or the dark-field list has a length
that is not 0, not 1 and not the number of input stacks, `stitch_image`
logs a usage error without raising (the result is `.ok`, not an
exception), returns Python `None`, performs no stitching-engine call
(the trace holds only the error log), and leaves the filesystem
unchanged — no output file is produced.  (2) A flat-field list of
length 1 is broadcast: any engine call made by such a run receives the
single profile replicated once per input stack. -/
theorem C4_stitch_profile_length_validation :
    (∀ (engine : EngineCall → FS → FS) (files : List String) (output : String)
       (ac : Nat) (fx fy : Bool) (oc : List Nat) (fmt : String) (pyr : Bool)
       (ffp dfp : List String) (q : Bool) (fs : FS),
      ((ffp.length ≠ 0 ∧ ffp.length ≠ 1 ∧ ffp.length ≠ files.length) ∨
       (dfp.length ≠ 0 ∧ dfp.length ≠ 1 ∧ dfp.length ≠ files.length)) →
      stitch_image engine files output ac fx fy oc fmt pyr ffp dfp false q fs =
        (fs, [.errorLog], .ok none))
    ∧ (∀ (engine : EngineCall → FS → FS) (files : List String) (output : String)
       (ac : Nat) (fx fy : Bool) (oc : List Nat) (fmt : String) (pyr : Bool)
       (p : String) (dfp : List String) (q : Bool) (fs : FS)
       (c : EngineCall) (fs2 : FS) (r : Except Err (Option (List String))),
      stitch_image engine files output ac fx fy oc fmt pyr [p] dfp false q fs =
        (fs2, [.engineCall c], r) →
      c.ffp = List.replicate files.length p) := by
  constructor
  · intro engine files output ac fx fy oc fmt pyr ffp dfp q fs h
    rcases h with ⟨h0, h1, hn⟩ | ⟨h0, h1, hn⟩
    · exact stitch_eq_of_ffp_none engine files output ac fx fy oc fmt pyr ffp dfp false q fs
        (checkProfiles_eq_none ffp files.length h0 h1 hn)
    · cases hf : checkProfiles ffp files.length with
      | none =>
        exact stitch_eq_of_ffp_none engine files output ac fx fy oc fmt pyr ffp dfp false q fs hf
      | some ffp2 =>
        exact stitch_eq_of_dfp_none engine files output ac fx fy oc fmt pyr ffp dfp false q fs
          ffp2 hf (checkProfiles_eq_none dfp files.length h0 h1 hn)
  · intro engine files output ac fx fy oc fmt pyr p dfp q fs c fs2 r h
    have hf := checkProfiles_singleton p files.length
    cases hd : checkProfiles dfp files.length with
    | none =>
      rw [stitch_eq_of_dfp_none engine files output ac fx fy oc fmt pyr [p] dfp false q fs
        _ hf hd] at h
      simp at h
    | some dfp2 =>
      by_cases hglob : search_for_files fs output (formatChannel fmt "*") = []
      · rw [stitch_eq_fresh engine files output ac fx fy oc fmt pyr [p] dfp q fs
          _ dfp2 hf hd hglob] at h
        have h2 := congrArg
          (fun t : FS × List Event × Except Err (Option (List String)) => t.2.1) h
        simp only [List.cons.injEq, and_true, Event.engineCall.injEq] at h2
        rw [← h2]
      · rw [stitch_eq_cache engine files output ac fx fy oc fmt pyr [p] dfp q fs
          _ dfp2 hf hd hglob] at h
        simp at h

/-- Concrete instance of C4: a two-element flat-field list with one
input stack aborts with no engine call; a one-element flat-field list
with two input stacks reaches the engine duplicated. -/
theorem C4_witness :
    (stitch_image (fun _ f => f) ["x"] "out" 0 false false []
        "stitched_ch_{channel}.tif" false ["a", "b"] [] false false [] =
      ([], [.errorLog], .ok none))
    ∧ (⟨["x", "y"], "out/stitched_ch_{channel}.tif", false, false,
         ["p", "p"], [], 0⟩ : EngineCall).ffp = List.replicate 2 "p" :=
  ⟨C4_stitch_profile_length_validation.1 (fun _ f => f) ["x"] "out" 0 false false []
      "stitched_ch_{channel}.tif" false ["a", "b"] [] false []
      (Or.inl ⟨by decide, by decide, by decide⟩),
   C4_stitch_profile_length_validation.2 (fun _ f => f) ["x", "y"] "out" 0 false false []
      "stitched_ch_{channel}.tif" false "p" [] false []
      ⟨["x", "y"], "out/stitched_ch_{channel}.tif", false, false, ["p", "p"], [], 0⟩
      [] (.ok (some [])) rfl⟩

/-- C5: every completing `stitch_image` call — cache hit or fresh —
returns exactly the sorted list of files matching the filename template
with a wildcard channel in the final filesystem: the result equals the
`sortPaths` of the re-glob, is pairwise `strLe`-sorted, and is a
permutation of the glob matches.  (The Channel Merger writes one plane
per entry of this list in list order, per C2.) -/
theorem C5_stitch_returns_sorted_glob
    (engine : EngineCall → FS → FS) (files : List String) (output : String)
    (ac : Nat) (fx fy : Bool) (oc : List Nat) (fmt : String) (pyr : Bool)
    (ffp dfp : List String) (q : Bool) (fs : FS) (l : List String)
    (h : (stitch_image engine files output ac fx fy oc fmt pyr ffp dfp false q fs).2.2 =
      .ok (some l)) :
    l = sortPaths (search_for_files
        (stitch_image engine files output ac fx fy oc fmt pyr ffp dfp false q fs).1
        output (formatChannel fmt "*"))
    ∧ l.Pairwise (fun a b => strLe a b = true)
    ∧ l.Perm (search_for_files
        (stitch_image engine files output ac fx fy oc fmt pyr ffp dfp false q fs).1
        output (formatChannel fmt "*")) := by
  obtain ⟨_, _, hl⟩ := stitch_ok_spec engine files output ac fx fy oc fmt pyr ffp dfp q fs l h
  refine ⟨hl, ?_, ?_⟩
  · rw [hl]; exact sortPaths_pairwise _
  · rw [hl]; exact sortPaths_perm _

/-- Concrete instance of C5: a cache-hit run returns the sorted glob of
the untouched filesystem (the two matching files come back sorted even
though they are stored unsorted). -/
theorem C5_witness :
    ["dir/stitched_ch_0.tif", "dir/stitched_ch_1.tif"] =
      sortPaths (search_for_files
        (stitch_image (fun _ f => f) ["stack"] "dir" 0 false false []
          "stitched_ch_{channel}.tif" false [] [] false false
          [("dir/stitched_ch_1.tif", emptyFile), ("dir/stitched_ch_0.tif", emptyFile)]).1
        "dir" (formatChannel "stitched_ch_{channel}.tif" "*"))
    ∧ (["dir/stitched_ch_0.tif", "dir/stitched_ch_1.tif"] : List String).Pairwise
        (fun a b => strLe a b = true)
    ∧ (["dir/stitched_ch_0.tif", "dir/stitched_ch_1.tif"] : List String).Perm
        (search_for_files
          (stitch_image (fun _ f => f) ["stack"] "dir" 0 false false []
            "stitched_ch_{channel}.tif" false [] [] false false
            [("dir/stitched_ch_1.tif", emptyFile), ("dir/stitched_ch_0.tif", emptyFile)]).1
          "dir" (formatChannel "stitched_ch_{channel}.tif" "*")) :=
  C5_stitch_returns_sorted_glob (fun _ f => f) ["stack"] "dir" 0 false false []
    "stitched_ch_{channel}.tif" false [] [] false
    [("dir/stitched_ch_1.tif", emptyFile), ("dir/stitched_ch_0.tif", emptyFile)]
    ["dir/stitched_ch_0.tif", "dir/stitched_ch_1.tif"] rfl

/-- C2: for a non-empty channel-mosaic list (with readable mosaics, a
metadata file carrying at least one image, size-preserving metadata
transforms that succeed, and an output path distinct from the inputs),
`merge_channels` deletes any pre-existing file at `output_path` and
writes one fresh output file there containing exactly one plane per
listed mosaic, in list order (`Forall₂` ties plane `i` to path `i`),
whose metadata image carries `SizeX` = the first mosaic's pixel width
and `SizeY` = its height, regardless of the other mosaics' dimensions.
The trace always contains the writer and per-plane reader openings —
the stage never short-circuits on an existing output. -/
theorem C2_merge_deletes_and_writes_fresh
    (image_paths : List String) (first : String) (rest : List String)
    (metadata_path output_path : String)
    (metadata_funcs : List (OMERoot → Except Err OMERoot)) (fs : FS)
    (mfile : File) (img0 : OMEImage) (restImgs : List OMEImage) (h0 w0 : Nat)
    (hpaths : image_paths = first :: rest)
    (hshape : get_image_shape fs first = .ok (h0, w0))
    (hmeta : lookupFile fs metadata_path = some mfile)
    (himgs : mfile.meta.images = img0 :: restImgs)
    (hfuncs : ∀ r : OMERoot, ∃ r', applyFuncs metadata_funcs r = .ok r' ∧
      r'.images.map sizePair = r.images.map sizePair)
    (hout : output_path ∉ image_paths)
    (hplanes : ∀ p ∈ image_paths, ∃ pl, readPlane0 fs p = .ok pl) :
    ∃ planes meta,
      merge_channels image_paths metadata_path output_path metadata_funcs fs =
        ((output_path, ⟨[planes], meta⟩) :: eraseFile fs output_path,
         [.readerOpen metadata_path, .writerOpen output_path]
           ++ image_paths.map Event.readerOpen,
         .ok output_path)
      ∧ List.Forall₂ (fun p pl => readPlane0 fs p = .ok pl) image_paths planes
      ∧ meta.images.map sizePair = [(w0, h0)] := by
  subst hpaths
  obtain ⟨meta, hm, hsz⟩ := hfuncs
    { mfile.meta with
        images := [{ img0 with
            name := fileNameOf output_path,
            pixels := { img0.pixels with sizeX := w0, sizeY := h0 } }] }
  obtain ⟨planes, hps, hforall⟩ := readPlanes_ok fs (first :: rest) hplanes
  have hcongr : readPlanes
      (if pathExists fs output_path = true then eraseFile fs output_path else fs)
      (first :: rest) = readPlanes fs (first :: rest) := by
    by_cases hex : pathExists fs output_path = true
    · rw [if_pos hex]
      exact readPlanes_congr fs _ _
        (fun p hp => readPlane0_eraseFile_ne fs p output_path (fun hq => hout (hq ▸ hp)))
    · rw [if_neg hex]
  have herase : eraseFile
      (if pathExists fs output_path = true then eraseFile fs output_path else fs)
      output_path = eraseFile fs output_path := by
    by_cases hex : pathExists fs output_path = true
    · rw [if_pos hex, eraseFile_idem]
    · rw [if_neg hex]
  refine ⟨planes, meta, ?_, hforall, by rw [hsz]; rfl⟩
  unfold merge_channels
  simp only [List.head?_cons, hshape, hmeta, himgs, hm, hcongr, hps, setFile]
  rw [herase]

/-- Concrete instance of C2: merging two mosaics of different sizes over
a pre-existing output file replaces it with a fresh two-plane file
whose metadata sizes come from the first mosaic (width 9, height 7). -/
theorem C2_witness :
    ∃ planes meta,
      merge_channels ["c0", "c1"] "meta" "outp" [] fsW =
        (("outp", ⟨[planes], meta⟩) :: eraseFile fsW "outp",
         [.readerOpen "meta", .writerOpen "outp"]
           ++ (["c0", "c1"] : List String).map Event.readerOpen,
         .ok "outp")
      ∧ List.Forall₂ (fun p pl => readPlane0 fsW p = .ok pl) ["c0", "c1"] planes
      ∧ meta.images.map sizePair = [(9, 7)] :=
  C2_merge_deletes_and_writes_fresh ["c0", "c1"] "c0" ["c1"] "meta" "outp" [] fsW
    ⟨[[planeW1]], rootW⟩ imgW [] 7 9 rfl rfl rfl rfl
    (fun r => ⟨r, rfl, rfl⟩) (by decide)
    (by
      intro p hp
      rcases List.mem_cons.mp hp with rfl | hp
      · exact ⟨planeW1, rfl⟩
      · rcases List.mem_cons.mp hp with rfl | hp
        · exact ⟨planeW2, rfl⟩
        · cases hp)

theorem fixImagesAux_id (images : List OMEImage) (instrument : Instrument)
    (kept : Option FilterSet)
    (h : ∀ img ∈ images, img.pixels.channels.length ≤ 1) :
    ∃ kept', fixImagesAux instrument kept images =
      some (instrument, kept', images) := by
  induction images generalizing kept with
  | nil => exact ⟨kept, rfl⟩
  | cons img rest ih =>
    have h1 := h img (by simp)
    cases hch : img.pixels.channels with
    | nil =>
      obtain ⟨k', hk⟩ := ih kept (fun i hi => h i (by simp [hi]))
      refine ⟨k', ?_⟩
      have himg : ({ img with pixels := { img.pixels with channels := ([] : List Channel) } } : OMEImage) = img := by
        rw [← hch]
      unfold fixImagesAux
      rw [hch]
      simp only [fixChansAux]
      rw [hk, himg]
    | cons c cs =>
      have hcs : cs = [] := by
        rw [hch] at h1
        simp only [List.length_cons] at h1
        exact List.length_eq_zero.mp (by omega)
      subst hcs
      obtain ⟨k', hk⟩ := ih c.linkedFilterSet (fun i hi => h i (by simp [hi]))
      refine ⟨k', ?_⟩
      have himg : ({ img with pixels := { img.pixels with channels := [c] } } : OMEImage) = img := by
        rw [← hch]
      unfold fixImagesAux
      rw [hch]
      simp only [fixChansAux, reduceIte]
      rw [hk, himg]

/-- C10: on a tree in which every image has at most one channel,
`fix_filters_metadata` is the identity (on any tree owning an
instrument): no channel is relinked and no filter set, dichroic or
filter is removed, since all mutation happens only at channel index
greater than zero. -/
theorem C10_at_most_one_channel_unchanged (root : OMERoot)
    (instrument : Instrument) (restInstr : List Instrument)
    (hinstr : root.instruments = instrument :: restInstr)
    (hone : ∀ img ∈ root.images, img.pixels.channels.length ≤ 1) :
    fix_filters_metadata root = some root := by
  obtain ⟨k', hk⟩ := fixImagesAux_id root.images instrument none hone
  unfold fix_filters_metadata
  simp only [hinstr, hk]
  rw [← hinstr]

/-- Concrete instance of C10: a tree with a one-channel image and a
zero-channel image is returned untouched. -/
theorem C10_witness : fix_filters_metadata rootW10 = some rootW10 :=
  C10_at_most_one_channel_unchanged rootW10 instrW [] rfl (by decide)

theorem fixChansAux_pos (cs : List Channel) : ∀ (idx : Nat), idx ≠ 0 →
    ∀ (instrument : Instrument) (kept : Option FilterSet),
    (∀ c ∈ cs, (c.linkedFilterSet).isSome = true) →
    fixChansAux idx instrument kept cs =
      some ((cs.filterMap (·.linkedFilterSet)).foldl removeFilterSetRefs instrument,
            kept, cs.map (fun c => { c with linkedFilterSet := kept })) := by
  induction cs with
  | nil => intro idx hidx instrument kept _; rfl
  | cons c cs ih =>
    intro idx hidx instrument kept h
    obtain ⟨f, hf⟩ := Option.isSome_iff_exists.mp (h c (by simp))
    simp only [fixChansAux, if_neg hidx, hf]
    rw [ih (idx + 1) (by omega) (removeFilterSetRefs instrument f) kept
      (fun d hd => h d (by simp [hd]))]
    simp [List.filterMap_cons, hf]

theorem fixChansAux_zero (c : Channel) (cs : List Channel)
    (instrument : Instrument) (kept : Option FilterSet)
    (h : ∀ d ∈ cs, (d.linkedFilterSet).isSome = true) :
    fixChansAux 0 instrument kept (c :: cs) =
      some ((cs.filterMap (·.linkedFilterSet)).foldl removeFilterSetRefs instrument,
            c.linkedFilterSet,
            c :: cs.map (fun d => { d with linkedFilterSet := c.linkedFilterSet })) := by
  simp only [fixChansAux, reduceIte]
  rw [fixChansAux_pos cs 1 one_ne_zero instrument c.linkedFilterSet h]

theorem fixImagesAux_spec (images : List OMEImage) :
    ∀ (instrument : Instrument) (kept : Option FilterSet),
    (∀ img ∈ images, ∀ c ∈ img.pixels.channels, (c.linkedFilterSet).isSome = true) →
    ∃ kept', fixImagesAux instrument kept images =
      some ((orphanSets images).foldl removeFilterSetRefs instrument, kept',
            images.map relinkImage) := by
  induction images with
  | nil => intro instrument kept _; exact ⟨kept, rfl⟩
  | cons img rest ih =>
    intro instrument kept h
    cases hch : img.pixels.channels with
    | nil =>
      obtain ⟨k', hk⟩ := ih instrument kept (fun i hi => h i (by simp [hi]))
      refine ⟨k', ?_⟩
      have ho : orphanSets (img :: rest) = orphanSets rest := by
        show imageOrphans img ++ orphanSets rest = orphanSets rest
        rw [imageOrphans, hch]
        rfl
      have hr : relinkImage img =
          { img with pixels := { img.pixels with channels := ([] : List Channel) } } := by
        unfold relinkImage
        rw [hch]
        rfl
      unfold fixImagesAux
      rw [hch]
      simp only [fixChansAux]
      rw [hk, ho, List.map_cons, hr]
    | cons c cs =>
      have hsome : ∀ d ∈ cs, (d.linkedFilterSet).isSome = true :=
        fun d hd => h img (by simp) d (by rw [hch]; exact List.mem_cons_of_mem c hd)
      obtain ⟨k', hk⟩ := ih
        ((cs.filterMap (·.linkedFilterSet)).foldl removeFilterSetRefs instrument)
        c.linkedFilterSet (fun i hi => h i (by simp [hi]))
      refine ⟨k', ?_⟩
      have ho : (orphanSets (img :: rest)).foldl removeFilterSetRefs instrument =
          (orphanSets rest).foldl removeFilterSetRefs
            ((cs.filterMap (·.linkedFilterSet)).foldl removeFilterSetRefs instrument) := by
        show ((imageOrphans img ++ orphanSets rest).foldl removeFilterSetRefs instrument) = _
        rw [List.foldl_append, imageOrphans, hch, List.drop_succ_cons, List.drop_zero]
      have hr : relinkImage img = { img with pixels := { img.pixels with
          channels := c :: cs.map (fun d => { d with linkedFilterSet := c.linkedFilterSet }) } } := by
        unfold relinkImage
        rw [hch]
        rfl
      unfold fixImagesAux
      rw [hch, fixChansAux_zero c cs instrument kept hsome]
      simp only []
      rw [hk, ho, List.map_cons, hr]

theorem foldl_removeFilterSetRefs_eq (sets : List FilterSet) :
    ∀ (instrument : Instrument),
    sets.foldl removeFilterSetRefs instrument =
      ⟨instrument.filterSets.diff sets,
       instrument.dichroics.diff (sets.filterMap (·.dichroic)),
       instrument.filters.diff (sets.foldr (fun s acc => setFilters s ++ acc) [])⟩ := by
  induction sets with
  | nil =>
    intro instrument
    simp [List.diff_nil]
  | cons s ss ih =>
    intro instrument
    rw [List.foldl_cons, ih]
    have h1 : (removeFilterSetRefs instrument s).filterSets =
        instrument.filterSets.erase s := by
      unfold removeFilterSetRefs
      cases s.dichroic <;> rfl
    have h2 : (removeFilterSetRefs instrument s).dichroics =
        instrument.dichroics.diff ([s].filterMap (·.dichroic)) := by
      unfold removeFilterSetRefs
      cases hd : s.dichroic <;> simp [hd, List.diff_cons, List.diff_nil]
    have h3 : (removeFilterSetRefs instrument s).filters =
        instrument.filters.diff (setFilters s) := by
      unfold removeFilterSetRefs
      cases s.dichroic <;>
        simp [setFilters, List.diff_append, List.diff_eq_foldl]
    rw [h1, h2, h3]
    have hd2 : ((s :: ss).filterMap (·.dichroic)) =
        [s].filterMap (·.dichroic) ++ ss.filterMap (·.dichroic) := by
      cases hd : s.dichroic <;> simp [hd, List.filterMap_cons]
    rw [hd2]
    simp only [List.diff_cons, List.diff_append, List.foldr_cons]

theorem orphan_mem_allLinked (images : List OMEImage) (f : FilterSet)
    (h : f ∈ orphanSets images) : f ∈ allLinkedSets images := by
  induction images with
  | nil => exact h
  | cons img rest ih =>
    have h' : f ∈ imageOrphans img ++ orphanSets rest := h
    show f ∈ img.pixels.channels.filterMap (·.linkedFilterSet) ++ allLinkedSets rest
    rcases List.mem_append.mp h' with h1 | h1
    · obtain ⟨c, hc, hcf⟩ := List.mem_filterMap.mp h1
      exact List.mem_append.mpr
        (Or.inl (List.mem_filterMap.mpr ⟨c, List.mem_of_mem_drop hc, hcf⟩))
    · exact List.mem_append.mpr (Or.inr (ih h1))

theorem chan_linked_mem_allLinked (images : List OMEImage) (img : OMEImage)
    (himg : img ∈ images) (c : Channel) (hc : c ∈ img.pixels.channels)
    (f : FilterSet) (hf : c.linkedFilterSet = some f) :
    f ∈ allLinkedSets images := by
  induction images with
  | nil => cases himg
  | cons i rest ih =>
    show f ∈ i.pixels.channels.filterMap (·.linkedFilterSet) ++ allLinkedSets rest
    rcases List.mem_cons.mp himg with rfl | himg
    · exact List.mem_append.mpr (Or.inl (List.mem_filterMap.mpr ⟨c, hc, hf⟩))
    · exact List.mem_append.mpr (Or.inr (ih himg))

theorem head_not_orphan (images : List OMEImage)
    (hnodup : (allLinkedSets images).Nodup)
    (img : OMEImage) (himg : img ∈ images) (c0 : Channel)
    (hc0 : img.pixels.channels.head? = some c0) (f : FilterSet)
    (hf : c0.linkedFilterSet = some f) :
    f ∉ orphanSets images := by
  induction images with
  | nil => cases himg
  | cons i rest ih =>
    have hsplit : (i.pixels.channels.filterMap (·.linkedFilterSet)).Nodup ∧
        (allLinkedSets rest).Nodup ∧
        (i.pixels.channels.filterMap (·.linkedFilterSet)).Disjoint (allLinkedSets rest) := by
      have h := hnodup
      rw [show allLinkedSets (i :: rest) =
        i.pixels.channels.filterMap (·.linkedFilterSet) ++ allLinkedSets rest from rfl,
        List.nodup_append] at h
      exact h
    intro hforphan
    have hforphan' : f ∈ imageOrphans i ++ orphanSets rest := hforphan
    rcases List.mem_cons.mp himg with rfl | himg
    · cases hch : img.pixels.channels with
      | nil => rw [hch] at hc0; cases hc0
      | cons c cs =>
        rw [hch, List.head?_cons] at hc0
        injection hc0 with hceq
        subst hceq
        rcases List.mem_append.mp hforphan' with h1 | h1
        · have hn1 : (img.pixels.channels.filterMap (·.linkedFilterSet)).Nodup := hsplit.1
          rw [hch, List.filterMap_cons_some hf] at hn1
          have hf2 : f ∈ cs.filterMap (·.linkedFilterSet) := by
            have he : imageOrphans img = cs.filterMap (·.linkedFilterSet) := by
              rw [imageOrphans, hch, List.drop_succ_cons, List.drop_zero]
            rwa [he] at h1
          exact (List.nodup_cons.mp hn1).1 hf2
        · have hmem : f ∈ img.pixels.channels.filterMap (·.linkedFilterSet) := by
            rw [hch]
            exact List.mem_filterMap.mpr ⟨c, by simp, hf⟩
          exact hsplit.2.2 hmem (orphan_mem_allLinked rest f h1)
    · rcases List.mem_append.mp hforphan' with h1 | h1
      · have hmemI : f ∈ i.pixels.channels.filterMap (·.linkedFilterSet) := by
          obtain ⟨c, hc, hcf⟩ := List.mem_filterMap.mp h1
          exact List.mem_filterMap.mpr ⟨c, List.mem_of_mem_drop hc, hcf⟩
        have hmemR : f ∈ allLinkedSets rest :=
          chan_linked_mem_allLinked rest img himg c0
            (List.mem_of_mem_head? hc0) f hf
        exact hsplit.2.2 hmemI hmemR
      · exact ih hsplit.2.1 himg h1

/-- C1: on a tree whose every image has `K ≥ 1` channels, each channel
linked to a filter set, all linked filter sets pairwise distinct, and a
duplicate-free instrument, `fix_filters_metadata` (1) relinks every
channel beyond the first of each image to that image's first channel's
filter set and removes from the instrument exactly the orphaned filter
sets — every tail channel's old set — together with their linked
dichroics and all their linked excitation/emission filters (the
instrument lists become their `filter`s by non-membership in the orphan
lists); and (2) afterwards each image's `K` channels all reference one
single filter set, the first channel's, which is not among the removed
ones (it survives in the instrument whenever it was there). -/
theorem C1_collapse_filter_sets (root : OMERoot) (instrument : Instrument)
    (restInstr : List Instrument) (K : Nat)
    (hinstr : root.instruments = instrument :: restInstr)
    (hK : 1 ≤ K)
    (hlen : ∀ img ∈ root.images, img.pixels.channels.length = K)
    (hsome : ∀ img ∈ root.images, ∀ c ∈ img.pixels.channels,
      (c.linkedFilterSet).isSome = true)
    (hdistinct : (allLinkedSets root.images).Nodup)
    (hnfs : instrument.filterSets.Nodup)
    (hnd : instrument.dichroics.Nodup)
    (hnf : instrument.filters.Nodup) :
    fix_filters_metadata root =
      some { root with
               instruments :=
                 ({ filterSets :=
                      instrument.filterSets.filter (fun f => f ∉ orphanSets root.images),
                    dichroics :=
                      instrument.dichroics.filter (fun d => d ∉ orphanDichroics root.images),
                    filters :=
                      instrument.filters.filter (fun f => f ∉ orphanFilters root.images) }
                  : Instrument) :: restInstr,
               images := root.images.map relinkImage }
    ∧ (∀ img ∈ root.images, ∃ f0 : FilterSet,
        (relinkImage img).pixels.channels.length = K ∧
        (∀ c ∈ (relinkImage img).pixels.channels, c.linkedFilterSet = some f0) ∧
        f0 ∉ orphanSets root.images ∧
        (f0 ∈ instrument.filterSets →
          f0 ∈ instrument.filterSets.filter (fun f => f ∉ orphanSets root.images))) := by
  constructor
  · obtain ⟨k', hk⟩ := fixImagesAux_spec root.images instrument none hsome
    unfold fix_filters_metadata
    simp only [hinstr, hk]
    rw [foldl_removeFilterSetRefs_eq]
    rw [hnfs.diff_eq_filter, hnd.diff_eq_filter, hnf.diff_eq_filter]
    rfl
  · intro img himg
    have hKlen := hlen img himg
    cases hch : img.pixels.channels with
    | nil =>
      rw [hch] at hKlen
      simp at hKlen
      omega
    | cons c cs =>
      obtain ⟨f0, hf0⟩ := Option.isSome_iff_exists.mp
        (hsome img himg c (by rw [hch]; exact List.mem_cons_self c cs))
      have hrel : (relinkImage img).pixels.channels =
          c :: cs.map (fun d => { d with linkedFilterSet := c.linkedFilterSet }) := by
        show relinkChannels img.pixels.channels = _
        rw [hch]
        rfl
      have hhead : img.pixels.channels.head? = some c := by
        rw [hch]
        rfl
      refine ⟨f0, ?_, ?_,
        head_not_orphan root.images hdistinct img himg c hhead f0 hf0, ?_⟩
      · rw [hrel, List.length_cons, List.length_map]
        rw [hch, List.length_cons] at hKlen
        exact hKlen
      · intro d hd
        rw [hrel] at hd
        rcases List.mem_cons.mp hd with rfl | hd
        · exact hf0
        · obtain ⟨d0, _, rfl⟩ := List.mem_map.mp hd
          exact hf0
      · intro hmem
        rw [List.mem_filter]
        exact ⟨hmem, by
          simp only [decide_eq_true_eq]
          exact head_not_orphan root.images hdistinct img himg c hhead f0 hf0⟩

/-- Concrete instance of C1: a one-image tree with two channels linked
to distinct filter sets collapses onto the first channel's set; the
second set, its dichroic 12 and its filters 22/32 are removed. -/
theorem C1_witness :
    fix_filters_metadata rootW =
      some { rootW with
               instruments :=
                 ({ filterSets :=
                      instrW.filterSets.filter (fun f => f ∉ orphanSets rootW.images),
                    dichroics :=
                      instrW.dichroics.filter (fun d => d ∉ orphanDichroics rootW.images),
                    filters :=
                      instrW.filters.filter (fun f => f ∉ orphanFilters rootW.images) }
                  : Instrument) :: [],
               images := rootW.images.map relinkImage }
    ∧ (∃ f0 : FilterSet,
        (relinkImage imgW).pixels.channels.length = 2 ∧
        (∀ c ∈ (relinkImage imgW).pixels.channels, c.linkedFilterSet = some f0) ∧
        f0 ∉ orphanSets rootW.images ∧
        (f0 ∈ instrW.filterSets →
          f0 ∈ instrW.filterSets.filter (fun f => f ∉ orphanSets rootW.images))) :=
  ⟨(C1_collapse_filter_sets rootW instrW [] 2 rfl (by decide) (by decide) (by decide)
      (by decide) (by decide) (by decide) (by decide)).1,
   (C1_collapse_filter_sets rootW instrW [] 2 rfl (by decide) (by decide) (by decide)
      (by decide) (by decide) (by decide) (by decide)).2 imgW (by decide)⟩

/-- C8: the `--flip-x` and `--flip-y` command-line flags are parsed but
NOT passed through to the stitching stage — the assignments that would
forward them are commented out in the source, and `process_image`
hardcodes `flip_y=True` while leaving `flip_x` at its default `False`.
Concretely: invoking the entry point with `--flip-x` yields a parsed
`flip_x = true` (and `flip_y = false`), yet the one stitching-engine
call of the run carries orientation flags `(false, true)`, contradicting
the claim (and the flags' own help text). -/
theorem C8_flip_flags_not_forwarded :
    (parseArgs ["sample.czi", "--flip-x"] argDefaults).flip_x = true ∧
    (parseArgs ["sample.czi", "--flip-x"] argDefaults).flip_y = false ∧
    engineFlips (main (fun _ f => f) (fun _ _ => 0) (fun _ f => f)
      ["prog", "sample.czi", "--flip-x"] fsC8).2.1 = [(false, true)] :=
  ⟨rfl, rfl, rfl⟩

end MosaicStitcher
